import Mathlib

/-!
Verification development for the MCP Server Editor of AgentCrew
(`AgentCrew/modules/gui/widgets/configs/mcp_config.py`, class `MCPsConfigTab`).

Strings are modelled as lists of characters (`Str`); Python's `str.strip()`
becomes `strip`, Python `dict` becomes an insertion-ordered association list
with `dictInsert` / `dictLookup`.
-/

namespace MCP

/-- Python `str` modelled as a list of characters. -/
abbrev Str := List Char

/-- Conversion from a Lean string literal. -/
def str (s : String) : Str := s.data

/-- Characters removed by Python `str.strip()` (ASCII whitespace). -/
def isSpace (c : Char) : Bool :=
  c == ' ' || c == '\t' || c == '\n' || c == '\r' || c == '\x0b' || c == '\x0c'

/-- Remove leading whitespace (left part of Python `strip()`). -/
def stripLeft (l : Str) : Str := l.dropWhile isSpace

/-- Remove trailing whitespace (right part of Python `strip()`). -/
def stripRight (l : Str) : Str := (l.reverse.dropWhile isSpace).reverse

/-- Python `str.strip()`: remove leading and trailing whitespace. -/
def strip (l : Str) : Str := stripRight (stripLeft l)

/-- Insertion-ordered dictionary assignment `d[k] = v` (Python dict):
an existing key keeps its position and gets the new value, a new key is
appended at the end. -/
def dictInsert {α : Type} (d : List (Str × α)) (k : Str) (v : α) : List (Str × α) :=
  match d with
  | [] => [(k, v)]
  | (k1, v1) :: t => if k1 = k then (k, v) :: t else (k1, v1) :: dictInsert t k v

/-- Dictionary lookup `d[k]` (Python dict). -/
def dictLookup {α : Type} (d : List (Str × α)) (k : Str) : Option α :=
  match d with
  | [] => none
  | (k1, v1) :: t => if k1 = k then some v1 else dictLookup t k

/-- One MCP server configuration record, the value stored per id
(the seven-key Python dict built in `save_mcp` / `add_new_mcp`). -/
structure ServerConfig where
  name : Str
  command : Str
  args : List Str
  env : List (Str × Str)
  enabledForAgents : List Str
  streaming_server : Bool
  url : Str
deriving DecidableEq, Repr

/-- One row of the `mcps_list` `QListWidget`: the display text and the
`(server_id, server_config)` pair stored in its `UserRole` data. -/
structure Item where
  text : Str
  id : Str
  cfg : ServerConfig
deriving DecidableEq, Repr

/-- Externally observable side effects of an operation, in order:
a whole-collection write to the configuration store
(`config_manager.write_mcp_config`), the `config_changed` signal emission,
or a validation warning dialog (`QMessageBox.warning`). -/
inductive Effect where
  | write (m : List (Str × ServerConfig))
  | configChanged
  | warning (msg : Str)
deriving DecidableEq, Repr

/-- The state of the `MCPsConfigTab` widget: the loaded store copy
(`self.mcps_config`), the list items, the current selection (as an index
into `items`), the dirty flag, the form field contents, and the
enabled/visible flags of the relevant controls. -/
structure MCPState where
  mcps_config : List (Str × ServerConfig)
  items : List Item
  current : Option Nat
  editor_enabled : Bool
  is_dirty : Bool
  name_input : Str
  streaming_checkbox : Bool
  url_input : Str
  command_input : Str
  arg_inputs : List Str
  env_inputs : List (Str × Str)
  agent_checkboxes : List (Str × Bool)
  sse_visible : Bool
  stdio_visible : Bool
  save_btn_enabled : Bool
  remove_btn_enabled : Bool
deriving DecidableEq, Repr

/-- `_update_save_button_state`. -/
def update_save_button_state (s : MCPState) : MCPState :=
  { s with save_btn_enabled := s.current.isSome && s.is_dirty }

/-- `_mark_dirty`: set the dirty flag only when an item is selected and the
editor form is enabled (`name_input.isEnabled()`). -/
def mark_dirty (s : MCPState) : MCPState :=
  if s.current.isSome && s.editor_enabled then
    update_save_button_state { s with is_dirty := true }
  else s

/-- `_set_sse_fields_visisble`. -/
def set_sse_fields_visisble (s : MCPState) (visible : Bool) : MCPState :=
  { s with sse_visible := visible }

/-- `_set_stdio_fields_visible` (command, args and env controls share one
visibility flag here). -/
def set_stdio_fields_visible (s : MCPState) (visible : Bool) : MCPState :=
  { s with stdio_visible := visible }

/-- `_on_streaming_server_changed`. -/
def on_streaming_server_changed (s : MCPState) (checked : Bool) : MCPState :=
  mark_dirty (set_stdio_fields_visible (set_sse_fields_visisble s checked) (!checked))

/-- `QCheckBox.setChecked` on the streaming checkbox: the `stateChanged`
signal (and with it `_on_streaming_server_changed`) fires only when the
state actually changes. -/
def set_streaming_checked (s : MCPState) (b : Bool) : MCPState :=
  if s.streaming_checkbox = b then s
  else on_streaming_server_changed { s with streaming_checkbox := b } b

/-- `QLineEdit.setText` on the name field: `textChanged` (connected to
`_mark_dirty`) fires only when the text actually changes. -/
def set_name_text (s : MCPState) (t : Str) : MCPState :=
  if s.name_input = t then s else mark_dirty { s with name_input := t }

/-- `QLineEdit.setText` on the url field. -/
def set_url_text (s : MCPState) (t : Str) : MCPState :=
  if s.url_input = t then s else mark_dirty { s with url_input := t }

/-- `QLineEdit.setText` on the command field. -/
def set_command_text (s : MCPState) (t : Str) : MCPState :=
  if s.command_input = t then s else mark_dirty { s with command_input := t }

/-- `set_editor_enabled`: enabling restores the transport-dependent
visibility from the checkbox; disabling hides both groups and clears the
dirty flag. -/
def set_editor_enabled (s : MCPState) (enabled : Bool) : MCPState :=
  let s1 := { s with editor_enabled := enabled }
  let s2 :=
    if enabled then
      set_sse_fields_visisble
        (set_stdio_fields_visible s1 (!s1.streaming_checkbox)) s1.streaming_checkbox
    else
      set_sse_fields_visisble (set_stdio_fields_visible s1 false) false
  let s3 := if !enabled then { s2 with is_dirty := false } else s2
  update_save_button_state s3

/-- `add_argument_field`: appends one argument row. -/
def add_argument_field (s : MCPState) (value : Str) (markDirtyOnAdd : Bool) : MCPState :=
  let s1 := { s with arg_inputs := s.arg_inputs ++ [value] }
  if markDirtyOnAdd then mark_dirty s1 else s1

/-- `remove_argument_field` (by row index); always marks dirty. -/
def remove_argument_field (s : MCPState) (i : Nat) : MCPState :=
  mark_dirty { s with arg_inputs := s.arg_inputs.eraseIdx i }

/-- `add_env_field`: appends one environment-variable row. -/
def add_env_field (s : MCPState) (key value : Str) (markDirtyOnAdd : Bool) : MCPState :=
  let s1 := { s with env_inputs := s.env_inputs ++ [(key, value)] }
  if markDirtyOnAdd then mark_dirty s1 else s1

/-- `remove_env_field` (by row index); always marks dirty. -/
def remove_env_field (s : MCPState) (i : Nat) : MCPState :=
  mark_dirty { s with env_inputs := s.env_inputs.eraseIdx i }

/-- `on_mcp_selected`, the `currentItemChanged` handler.  The population of
the form (setText / setChecked / clear+add of rows) is written as one record
update: the `textChanged` / `stateChanged` handlers fired by the individual
setters only touch `is_dirty`, `save_btn_enabled` and the two visibility
flags, all of which are overwritten by the trailing
`_on_streaming_server_changed` call and the final `is_dirty = False` /
`_update_save_button_state` lines of the source. -/
def on_mcp_selected (s : MCPState) (current : Option Nat) : MCPState :=
  match current with
  | none =>
    { set_editor_enabled s false with remove_btn_enabled := false }
  | some i =>
    match s.items[i]? with
    | none => s
    | some it =>
      let s1 := { set_editor_enabled s true with remove_btn_enabled := true }
      let cfg := it.cfg
      let s2 := { s1 with
        name_input := cfg.name,
        streaming_checkbox := cfg.streaming_server,
        url_input := cfg.url,
        command_input := cfg.command,
        arg_inputs := cfg.args,
        env_inputs := cfg.env,
        agent_checkboxes :=
          s1.agent_checkboxes.map (fun p => (p.1, cfg.enabledForAgents.contains p.1)) }
      let s3 := on_streaming_server_changed s2 cfg.streaming_server
      update_save_button_state { s3 with is_dirty := false }

/-- A user click on list row `i`: Qt updates `currentItem` and then emits
`currentItemChanged`, handled by `on_mcp_selected`. -/
def select (s : MCPState) (i : Nat) : MCPState :=
  on_mcp_selected { s with current := some i } (some i)

/-- The argument-collection loop of `save_mcp`: keep each row's stripped
text when it is non-empty. -/
def buildArgs (inputs : List Str) : List Str :=
  inputs.foldl (fun acc a =>
    if (strip a).isEmpty then acc else acc ++ [strip a]) []

/-- The env-collection loop of `save_mcp`: strip key and value of each row
and assign `env[key] = value` when the stripped key is non-empty. -/
def buildEnv (inputs : List (Str × Str)) : List (Str × Str) :=
  inputs.foldl (fun acc kv =>
    if (strip kv.1).isEmpty then acc else dictInsert acc (strip kv.1) (strip kv.2)) []

/-- The enabled-agents comprehension of `save_mcp`. -/
def checkedAgents (boxes : List (Str × Bool)) : List Str :=
  (boxes.filter (fun p => p.2)).map (fun p => p.1)

/-- The `server_config` dict built by `save_mcp` from the form fields. -/
def savedConfig (s : MCPState) : ServerConfig :=
  { name := strip s.name_input
    command := strip s.command_input
    args := buildArgs s.arg_inputs
    env := buildEnv s.env_inputs
    enabledForAgents := checkedAgents s.agent_checkboxes
    streaming_server := s.streaming_checkbox
    url := strip s.url_input }

/-- The dict built by `save_all_mcps` from all list items (`server_id`
maps to `server_config`; a duplicated id keeps the later item's config). -/
def itemsDict (items : List Item) : List (Str × ServerConfig) :=
  items.foldl (fun m it => dictInsert m it.id it.cfg) []

/-- `save_all_mcps`: write the whole collection to the store, update the
local copy, and emit `config_changed`. -/
def save_all_mcps (s : MCPState) : MCPState × List Effect :=
  let m := itemsDict s.items
  ({ s with mcps_config := m }, [Effect.write m, Effect.configChanged])

/-- The tail of `save_mcp` after validation succeeded: replace the selected
item's text and `(id, config)` data, clear the dirty flag, and run
`save_all_mcps`. -/
def save_mcp_commit (s : MCPState) (i : Nat) (it : Item) : MCPState × List Effect :=
  let cfg := savedConfig s
  let s1 := { s with items := s.items.set i { text := cfg.name, id := it.id, cfg := cfg } }
  let s2 := update_save_button_state { s1 with is_dirty := false }
  save_all_mcps s2

/-- `save_mcp`: validate the stripped form fields, report a warning and do
nothing on failure, otherwise commit and persist. -/
def save_mcp (s : MCPState) : MCPState × List Effect :=
  match s.current with
  | none => (s, [])
  | some i =>
    match s.items[i]? with
    | none => (s, [])
    | some it =>
      if (strip s.name_input).isEmpty then
        (s, [Effect.warning (str "Server name cannot be empty.")])
      else if s.streaming_checkbox then
        if (strip s.url_input).isEmpty then
          (s, [Effect.warning (str "URL cannot be empty for streaming servers.")])
        else save_mcp_commit s i it
      else
        if (strip s.command_input).isEmpty then
          (s, [Effect.warning (str "Command cannot be empty for stdio servers.")])
        else save_mcp_commit s i it

/-- The `new_server` defaults dict of `add_new_mcp`. -/
def new_server : ServerConfig :=
  { name := str "New Server"
    command := str "docker"
    args := [str "run", str "-i", str "--rm"]
    env := []
    enabledForAgents := []
    streaming_server := false
    url := str "" }

/-- `add_new_mcp`: append a new item whose id is derived from the size of
the last-loaded/persisted `mcps_config`, select it (`setCurrentItem` fires
`currentItemChanged`), and force the dirty flag on. -/
def add_new_mcp (s : MCPState) : MCPState :=
  let server_id := str "new_server_" ++ (toString (s.mcps_config.length + 1)).data
  let item : Item := { text := new_server.name, id := server_id, cfg := new_server }
  let s1 := { s with items := s.items ++ [item] }
  let s2 := on_mcp_selected { s1 with current := some s.items.length } (some s.items.length)
  update_save_button_state { s2 with is_dirty := true }

/-- `remove_mcp`; `confirm` is the user's answer to the confirmation
dialog.  On confirmation the selected row is taken out of the list (the
toolkit's automatic reselection is not specified by the source; the model
deselects), the editor is disabled and its name/command/args/env fields and
agent checkboxes cleared (the fired change handlers are no-ops because the
editor is already disabled), and the whole collection is persisted. -/
def remove_mcp (s : MCPState) (confirm : Bool) : MCPState × List Effect :=
  match s.current with
  | none => (s, [])
  | some i =>
    match s.items[i]? with
    | none => (s, [])
    | some _ =>
      if confirm then
        let s1 := { s with items := s.items.eraseIdx i, current := none }
        let s2 := set_editor_enabled s1 false
        let s3 := { s2 with
          name_input := [], command_input := [],
          arg_inputs := [], env_inputs := [],
          agent_checkboxes := s2.agent_checkboxes.map (fun p => (p.1, false)) }
        save_all_mcps s3
      else (s, [])

/-- The widget state right after `__init__` + `load_mcps` for a store
holding `cfg` and an agent manager knowing `agents`: items populated from
the store copy, nothing selected, editor disabled. -/
def initialState (cfg : List (Str × ServerConfig)) (agents : List Str) : MCPState :=
  { mcps_config := cfg
    items := cfg.map (fun kv => { text := kv.2.name, id := kv.1, cfg := kv.2 })
    current := none
    editor_enabled := false
    is_dirty := false
    name_input := []
    streaming_checkbox := false
    url_input := []
    command_input := []
    arg_inputs := []
    env_inputs := []
    agent_checkboxes := agents.map (fun a => (a, false))
    sse_visible := false
    stdio_visible := false
    save_btn_enabled := false
    remove_btn_enabled := false }

/-- A single user edit gesture on the form. -/
inductive Edit where
  | editName (t : Str)
  | editUrl (t : Str)
  | editCommand (t : Str)
  | editArg (i : Nat) (t : Str)
  | editEnvKey (i : Nat) (t : Str)
  | editEnvVal (i : Nat) (t : Str)
  | toggleAgent (i : Nat) (b : Bool)
  | addArg
  | addEnv
  | delArg (i : Nat)
  | delEnv (i : Nat)
  | setStreaming (b : Bool)
deriving DecidableEq, Repr

/-- Whether the gesture actually fires a change signal (Qt `textChanged` /
`stateChanged` fire only on a real change; a row button exists only for a
valid row; the add buttons always act). -/
def editEffective (s : MCPState) : Edit → Bool
  | .editName t => !(s.name_input == t)
  | .editUrl t => !(s.url_input == t)
  | .editCommand t => !(s.command_input == t)
  | .editArg i t =>
    match s.arg_inputs[i]? with
    | some a => !(a == t)
    | none => false
  | .editEnvKey i t =>
    match s.env_inputs[i]? with
    | some kv => !(kv.1 == t)
    | none => false
  | .editEnvVal i t =>
    match s.env_inputs[i]? with
    | some kv => !(kv.2 == t)
    | none => false
  | .toggleAgent i b =>
    match s.agent_checkboxes[i]? with
    | some p => !(p.2 == b)
    | none => false
  | .addArg => true
  | .addEnv => true
  | .delArg i => decide (i < s.arg_inputs.length)
  | .delEnv i => decide (i < s.env_inputs.length)
  | .setStreaming b => !(s.streaming_checkbox == b)

/-- Apply a user edit gesture: each widget setter fires its connected
handler (`_mark_dirty`, or `_on_streaming_server_changed` for the
streaming checkbox) exactly when the value changes. -/
def applyEdit (s : MCPState) : Edit → MCPState
  | .editName t => set_name_text s t
  | .editUrl t => set_url_text s t
  | .editCommand t => set_command_text s t
  | .editArg i t =>
    match s.arg_inputs[i]? with
    | some a => if a = t then s else mark_dirty { s with arg_inputs := s.arg_inputs.set i t }
    | none => s
  | .editEnvKey i t =>
    match s.env_inputs[i]? with
    | some kv =>
      if kv.1 = t then s
      else mark_dirty { s with env_inputs := s.env_inputs.set i (t, kv.2) }
    | none => s
  | .editEnvVal i t =>
    match s.env_inputs[i]? with
    | some kv =>
      if kv.2 = t then s
      else mark_dirty { s with env_inputs := s.env_inputs.set i (kv.1, t) }
    | none => s
  | .toggleAgent i b =>
    match s.agent_checkboxes[i]? with
    | some p =>
      if p.2 = b then s
      else mark_dirty { s with agent_checkboxes := s.agent_checkboxes.set i (p.1, b) }
    | none => s
  | .addArg => add_argument_field s [] true
  | .addEnv => add_env_field s [] [] true
  | .delArg i => if i < s.arg_inputs.length then remove_argument_field s i else s
  | .delEnv i => if i < s.env_inputs.length then remove_env_field s i else s
  | .setStreaming b => set_streaming_checked s b

/-- Specification-side validation predicate: the stripped name is
non-empty and the active transport's required field is non-empty. -/
def validationOk (s : MCPState) : Bool :=
  !(strip s.name_input).isEmpty &&
    (if s.streaming_checkbox then !(strip s.url_input).isEmpty
     else !(strip s.command_input).isEmpty)

/-- Specification-side normalisation of the env rows: strip key and value,
drop rows with empty key. -/
def processedEnv (inputs : List (Str × Str)) : List (Str × Str) :=
  (inputs.map (fun kv => (strip kv.1, strip kv.2))).filter (fun kv => !kv.1.isEmpty)

/-- Specification-side "later entry wins" lookup among the normalised env
rows. -/
def lookupLastWins (inputs : List (Str × Str)) (k : Str) : Option Str :=
  ((processedEnv inputs).reverse.find? (fun kv => kv.1 == k)).map Prod.snd

/-- No leading whitespace character. -/
def noLeadWs : Str → Bool
  | [] => true
  | c :: _ => !isSpace c

/-- No trailing whitespace character. -/
def noTrailWs (l : Str) : Bool := noLeadWs l.reverse

/-! ### Equation lemmas for the state operations -/

theorem mark_dirty_eq (s : MCPState) :
    mark_dirty s =
      if s.current.isSome && s.editor_enabled then
        { s with is_dirty := true, save_btn_enabled := true }
      else s := by
  unfold mark_dirty update_save_button_state
  split
  · rename_i h
    have h1 : s.current.isSome = true := (Bool.and_eq_true .. |>.mp h).1
    simp [h, h1]
  · simp [*]

theorem on_mcp_selected_some (s : MCPState) (i : Nat) (it : Item)
    (h : s.items[i]? = some it) :
    on_mcp_selected s (some i) = { s with
      editor_enabled := true
      remove_btn_enabled := true
      name_input := it.cfg.name
      streaming_checkbox := it.cfg.streaming_server
      url_input := it.cfg.url
      command_input := it.cfg.command
      arg_inputs := it.cfg.args
      env_inputs := it.cfg.env
      agent_checkboxes :=
        s.agent_checkboxes.map (fun p => (p.1, it.cfg.enabledForAgents.contains p.1))
      sse_visible := it.cfg.streaming_server
      stdio_visible := !it.cfg.streaming_server
      is_dirty := false
      save_btn_enabled := false } := by
  simp only [on_mcp_selected, h]
  simp only [set_editor_enabled, on_streaming_server_changed, set_sse_fields_visisble,
    set_stdio_fields_visible, update_save_button_state, mark_dirty_eq]
  simp
  split <;> simp

theorem select_eq (s : MCPState) (i : Nat) (it : Item)
    (h : s.items[i]? = some it) :
    select s i = { s with
      current := some i
      editor_enabled := true
      remove_btn_enabled := true
      name_input := it.cfg.name
      streaming_checkbox := it.cfg.streaming_server
      url_input := it.cfg.url
      command_input := it.cfg.command
      arg_inputs := it.cfg.args
      env_inputs := it.cfg.env
      agent_checkboxes :=
        s.agent_checkboxes.map (fun p => (p.1, it.cfg.enabledForAgents.contains p.1))
      sse_visible := it.cfg.streaming_server
      stdio_visible := !it.cfg.streaming_server
      is_dirty := false
      save_btn_enabled := false } := by
  unfold select
  exact on_mcp_selected_some { s with current := some i } i it h

theorem save_mcp_commit_eq (s : MCPState) (i : Nat) (it : Item) :
    save_mcp_commit s i it =
      ({ s with
          items := s.items.set i
            { text := (savedConfig s).name, id := it.id, cfg := savedConfig s }
          is_dirty := false
          save_btn_enabled := false
          mcps_config := itemsDict (s.items.set i
            { text := (savedConfig s).name, id := it.id, cfg := savedConfig s }) },
       [Effect.write (itemsDict (s.items.set i
          { text := (savedConfig s).name, id := it.id, cfg := savedConfig s })),
        Effect.configChanged]) := by
  simp only [save_mcp_commit, save_all_mcps, update_save_button_state]
  simp

theorem save_mcp_of_valid (s : MCPState) (i : Nat) (it : Item)
    (hc : s.current = some i) (hit : s.items[i]? = some it)
    (hv : validationOk s = true) :
    save_mcp s = save_mcp_commit s i it := by
  simp only [save_mcp, hc, hit]
  unfold validationOk at hv
  obtain ⟨h1, h2⟩ := Bool.and_eq_true .. |>.mp hv
  simp at h1
  cases hb : s.streaming_checkbox <;> rw [hb] at h2 <;> simp at h2 <;> simp [h1, h2, hb]

theorem save_mcp_of_invalid (s : MCPState) (i : Nat) (it : Item)
    (hc : s.current = some i) (hit : s.items[i]? = some it)
    (hv : validationOk s = false) :
    (save_mcp s).1 = s ∧ ∃ w, save_mcp s = (s, [Effect.warning w]) := by
  simp only [save_mcp, hc, hit]
  unfold validationOk at hv
  by_cases h1 : (strip s.name_input).isEmpty
  · exact ⟨by simp [h1], str "Server name cannot be empty.", by simp [h1]⟩
  · cases hb : s.streaming_checkbox <;> rw [hb] at hv <;> simp [h1] at hv
    · exact ⟨by simp [h1, hv, hb], str "Command cannot be empty for stdio servers.",
        by simp [h1, hv, hb]⟩
    · exact ⟨by simp [h1, hv, hb], str "URL cannot be empty for streaming servers.",
        by simp [h1, hv, hb]⟩

/-! ### Dictionary lemmas -/

theorem dictInsert_nil {α : Type} (k : Str) (v : α) : dictInsert [] k v = [(k, v)] := rfl

theorem dictInsert_cons {α : Type} (k1 : Str) (v1 : α) (t : List (Str × α)) (k : Str) (v : α) :
    dictInsert ((k1, v1) :: t) k v =
      if k1 = k then (k, v) :: t else (k1, v1) :: dictInsert t k v := rfl

theorem dictLookup_nil {α : Type} (k : Str) : dictLookup ([] : List (Str × α)) k = none := rfl

theorem dictLookup_cons {α : Type} (k1 : Str) (v1 : α) (t : List (Str × α)) (k : Str) :
    dictLookup ((k1, v1) :: t) k = if k1 = k then some v1 else dictLookup t k := rfl

theorem dictLookup_dictInsert {α : Type} (d : List (Str × α)) (k : Str) (v : α) (k2 : Str) :
    dictLookup (dictInsert d k v) k2 = if k2 = k then some v else dictLookup d k2 := by
  induction d with
  | nil =>
    by_cases h : k = k2
    · subst h; simp [dictInsert, dictLookup]
    · simp [dictInsert, dictLookup, h, Ne.symm h]
  | cons hd t ih =>
    obtain ⟨k1, v1⟩ := hd
    by_cases h1 : k1 = k
    · subst h1
      by_cases h2 : k1 = k2
      · subst h2; simp [dictInsert, dictLookup]
      · simp [dictInsert, dictLookup, h2, Ne.symm h2]
    · by_cases h2 : k1 = k2
      · subst h2
        have : ¬k1 = k := h1
        simp [dictInsert, dictLookup, h1, Ne.symm h1]
      · simp [dictInsert, dictLookup, h1, h2, ih]

theorem mem_dictInsert {α : Type} {x : Str × α} {d : List (Str × α)} {k : Str} {v : α}
    (h : x ∈ dictInsert d k v) : x ∈ d ∨ x = (k, v) := by
  induction d with
  | nil => simp [dictInsert_nil] at h; simp [h]
  | cons hd t ih =>
    obtain ⟨k1, v1⟩ := hd
    by_cases h1 : k1 = k <;> simp [dictInsert_cons, h1] at h
    · rcases h with h | h
      · right; simp [h]
      · left; simp [h]
    · rcases h with h | h
      · left; simp [h]
      · rcases ih h with h2 | h2
        · left; simp [h2]
        · right; exact h2

theorem mem_keys_dictInsert {α : Type} {x : Str} {d : List (Str × α)} {k : Str} {v : α} :
    x ∈ (dictInsert d k v).map Prod.fst ↔ x ∈ d.map Prod.fst ∨ x = k := by
  induction d with
  | nil =>
    rw [dictInsert_nil]
    simp only [List.map_cons, List.map_nil, List.mem_cons, List.not_mem_nil]
    itauto
  | cons hd t ih =>
    obtain ⟨k1, v1⟩ := hd
    by_cases h1 : k1 = k
    · subst h1
      rw [dictInsert_cons, if_pos rfl]
      simp only [List.map_cons, List.mem_cons]
      itauto
    · rw [dictInsert_cons, if_neg h1]
      simp only [List.map_cons, List.mem_cons, ih]
      itauto

theorem nodup_keys_dictInsert {α : Type} {d : List (Str × α)} (k : Str) (v : α)
    (h : (d.map Prod.fst).Nodup) : ((dictInsert d k v).map Prod.fst).Nodup := by
  induction d with
  | nil =>
    rw [dictInsert_nil]
    simp
  | cons hd t ih =>
    obtain ⟨k1, v1⟩ := hd
    rw [List.map_cons, List.nodup_cons] at h
    by_cases h1 : k1 = k
    · subst h1
      rw [dictInsert_cons, if_pos rfl]
      rw [List.map_cons, List.nodup_cons]
      exact h
    · rw [dictInsert_cons, if_neg h1]
      rw [List.map_cons, List.nodup_cons]
      refine ⟨fun hx => ?_, ih h.2⟩
      rcases mem_keys_dictInsert.mp hx with h2 | h2
      · exact h.1 h2
      · exact h1 h2

theorem dictLookup_foldl_dictInsert {α β : Type} (key : β → Str) (val : β → α) :
    ∀ (l : List β) (acc : List (Str × α)) (k : Str),
      dictLookup (l.foldl (fun m x => dictInsert m (key x) (val x)) acc) k =
        ((l.reverse.find? (fun x => key x == k)).map val).or (dictLookup acc k) := by
  intro l
  induction l with
  | nil => simp
  | cons a t ih =>
    intro acc k
    simp only [List.foldl_cons, List.reverse_cons, List.find?_append, ih]
    by_cases h : key a = k
    · have hb : (key a == k) = true := by simp [h]
      cases hf : t.reverse.find? (fun x => key x == k) <;>
        simp [hf, dictLookup_dictInsert, h, List.find?, hb]
    · have hb : (key a == k) = false := by simp [h]
      cases hf : t.reverse.find? (fun x => key x == k) <;>
        simp [hf, dictLookup_dictInsert, h, Ne.symm h, List.find?, hb]

theorem mem_foldl_dictInsert {α β : Type} (key : β → Str) (val : β → α) :
    ∀ (l : List β) (acc : List (Str × α)) (x : Str × α),
      x ∈ l.foldl (fun m y => dictInsert m (key y) (val y)) acc →
        x ∈ acc ∨ ∃ y ∈ l, x = (key y, val y) := by
  intro l
  induction l with
  | nil => simp
  | cons a t ih =>
    intro acc x hx
    rcases ih _ _ hx with h | ⟨y, hy, hxy⟩
    · rcases mem_dictInsert h with h2 | h2
      · exact Or.inl h2
      · exact Or.inr ⟨a, by simp, h2⟩
    · exact Or.inr ⟨y, by simp [hy], hxy⟩

theorem nodup_keys_foldl_dictInsert {α β : Type} (key : β → Str) (val : β → α) :
    ∀ (l : List β) (acc : List (Str × α)),
      (acc.map Prod.fst).Nodup →
      ((l.foldl (fun m y => dictInsert m (key y) (val y)) acc).map Prod.fst).Nodup := by
  intro l
  induction l with
  | nil => exact fun acc h => h
  | cons a t ih => exact fun acc h => ih _ (nodup_keys_dictInsert _ _ h)

/-! ### Characterisation of the save-time normalisation -/

theorem buildArgs_go (l : List Str) :
    ∀ acc : List Str,
      l.foldl (fun acc a =>
        if (strip a).isEmpty then acc else acc ++ [strip a]) acc =
      acc ++ (l.map strip).filter (fun v => !v.isEmpty) := by
  induction l with
  | nil => simp
  | cons a t ih =>
    intro acc
    rw [List.foldl_cons, List.map_cons, List.filter_cons]
    cases hb : (strip a).isEmpty
    · rw [if_neg (by simp [hb]), ih]
      simp [hb, List.append_assoc]
    · rw [if_pos (by simp [hb]), ih]
      simp [hb]

theorem buildArgs_eq (l : List Str) :
    buildArgs l = (l.map strip).filter (fun v => !v.isEmpty) := by
  unfold buildArgs
  rw [buildArgs_go l []]
  simp

theorem processedEnv_nil : processedEnv [] = [] := rfl

theorem processedEnv_cons (a : Str × Str) (t : List (Str × Str)) :
    processedEnv (a :: t) =
      if (strip a.1).isEmpty then processedEnv t
      else (strip a.1, strip a.2) :: processedEnv t := by
  simp only [processedEnv, List.map_cons, List.filter_cons]
  cases hb : (strip a.1).isEmpty <;> simp [hb]

theorem buildEnv_go (inputs : List (Str × Str)) :
    ∀ acc : List (Str × Str),
      inputs.foldl (fun acc kv =>
        if (strip kv.1).isEmpty then acc
        else dictInsert acc (strip kv.1) (strip kv.2)) acc =
      (processedEnv inputs).foldl (fun m kv => dictInsert m kv.1 kv.2) acc := by
  induction inputs with
  | nil => simp [processedEnv_nil]
  | cons a t ih =>
    intro acc
    rw [List.foldl_cons, processedEnv_cons]
    cases hb : (strip a.1).isEmpty
    · rw [if_neg (by simp [hb]), if_neg (by simp [hb]), List.foldl_cons, ih]
    · rw [if_pos (by simp [hb]), if_pos (by simp [hb]), ih]

theorem buildEnv_eq (inputs : List (Str × Str)) :
    buildEnv inputs = (processedEnv inputs).foldl (fun m kv => dictInsert m kv.1 kv.2) [] :=
  buildEnv_go inputs []

theorem dictLookup_buildEnv (inputs : List (Str × Str)) (k : Str) :
    dictLookup (buildEnv inputs) k = lookupLastWins inputs k := by
  rw [buildEnv_eq]
  have h := @dictLookup_foldl_dictInsert Str (Str × Str)
    Prod.fst Prod.snd (processedEnv inputs) [] k
  simp only [dictLookup] at h
  rw [h]
  simp [lookupLastWins]

theorem nodup_keys_buildEnv (inputs : List (Str × Str)) :
    ((buildEnv inputs).map Prod.fst).Nodup := by
  rw [buildEnv_eq]
  exact nodup_keys_foldl_dictInsert Prod.fst Prod.snd (processedEnv inputs) [] (by simp)

theorem mem_buildEnv {inputs : List (Str × Str)} {kv : Str × Str}
    (h : kv ∈ buildEnv inputs) :
    ∃ kv0 ∈ inputs, kv = (strip kv0.1, strip kv0.2) := by
  rw [buildEnv_eq] at h
  rcases mem_foldl_dictInsert Prod.fst Prod.snd (processedEnv inputs) [] kv h with
    h2 | ⟨y, hy, hxy⟩
  · simp at h2
  · simp only [processedEnv, List.mem_filter, List.mem_map] at hy
    obtain ⟨⟨kv0, hkv0, rfl⟩, _⟩ := hy
    exact ⟨kv0, hkv0, by simpa using hxy⟩

theorem dictLookup_itemsDict (items : List Item) (k : Str) :
    dictLookup (itemsDict items) k =
      (items.reverse.find? (fun it => it.id == k)).map Item.cfg := by
  have h := @dictLookup_foldl_dictInsert ServerConfig Item
    Item.id Item.cfg items [] k
  simp only [dictLookup] at h
  simpa [itemsDict] using h

/-! ### Whitespace lemmas -/

theorem noLeadWs_dropWhile (l : Str) : noLeadWs (l.dropWhile isSpace) = true := by
  induction l with
  | nil => rfl
  | cons c t ih =>
    cases hb : isSpace c
    · simp [List.dropWhile_cons, hb, noLeadWs]
    · simpa [List.dropWhile_cons, hb] using ih

theorem stripRight_front (l : Str) : stripRight l <+: l := by
  have h : l.reverse.dropWhile isSpace <:+ l.reverse := List.dropWhile_suffix isSpace
  have h2 := List.reverse_prefix.mpr h
  simpa [stripRight] using h2

theorem noLeadWs_of_front {x y : Str} (h : x <+: y) (hy : noLeadWs y = true) :
    noLeadWs x = true := by
  cases x with
  | nil => rfl
  | cons c t =>
    obtain ⟨r, hr⟩ := h
    rw [← hr] at hy
    simpa [noLeadWs] using hy

theorem noLeadWs_stripLeft (l : Str) : noLeadWs (stripLeft l) = true :=
  noLeadWs_dropWhile l

theorem noLeadWs_strip (l : Str) : noLeadWs (strip l) = true :=
  noLeadWs_of_front (stripRight_front (stripLeft l)) (noLeadWs_stripLeft l)

theorem noTrailWs_strip (l : Str) : noTrailWs (strip l) = true := by
  unfold noTrailWs strip stripRight
  rw [List.reverse_reverse]
  exact noLeadWs_dropWhile (stripLeft l).reverse

theorem strip_of_allWs {l : Str} (h : l.all isSpace = true) : strip l = [] := by
  have h1 : stripLeft l = [] := by
    rw [stripLeft, List.dropWhile_eq_nil_iff]
    exact fun a ha => List.all_eq_true.mp h a ha
  rw [strip, h1]
  rfl

theorem dictLookup_itemsDict_of_unique {items : List Item} {x : Item}
    (hmem : x ∈ items) (huniq : ∀ y ∈ items, y.id = x.id → y = x) :
    dictLookup (itemsDict items) x.id = some x.cfg := by
  rw [dictLookup_itemsDict]
  have hex : (items.reverse.find? (fun it => it.id == x.id)).isSome := by
    rw [List.find?_isSome]
    exact ⟨x, by simpa using hmem, by simp⟩
  obtain ⟨y, hy⟩ := Option.isSome_iff_exists.mp hex
  have hyid : y.id = x.id := by simpa using List.find?_some hy
  have hymem : y ∈ items := by
    have := List.mem_of_find?_eq_some hy
    simpa using this
  rw [hy]
  simp [huniq y hymem hyid]

theorem id_unique_of_nodup {items : List Item} (hnd : (items.map Item.id).Nodup)
    {i j : Nat} {x y : Item} (hx : items[i]? = some x) (hy : items[j]? = some y)
    (hne : j ≠ i) : y.id ≠ x.id := by
  intro hid
  have hxi : (items.map Item.id)[i]? = some x.id := by
    rw [List.getElem?_map, hx]; rfl
  have hyj : (items.map Item.id)[j]? = some y.id := by
    rw [List.getElem?_map, hy]; rfl
  obtain ⟨hjl, -⟩ := List.getElem?_eq_some_iff.mp hyj
  obtain ⟨hil, -⟩ := List.getElem?_eq_some_iff.mp hxi
  rcases Nat.lt_or_ge j i with h | h
  · exact List.nodup_iff_getElem?_ne_getElem?.mp hnd j i h hil
      (by rw [hyj, hxi, hid])
  · have h2 : i < j := Nat.lt_of_le_of_ne h (Ne.symm hne)
    exact List.nodup_iff_getElem?_ne_getElem?.mp hnd i j h2 hjl
      (by rw [hyj, hxi, hid])

theorem set_concat_length {α : Type} (l : List α) (a b : α) :
    (l ++ [a]).set l.length b = l ++ [b] := by
  induction l with
  | nil => rfl
  | cons c t ih => simp [List.set_cons_succ, ih]

/-! ### Witness fixtures -/

/-- A well-formed stdio record used by concrete witnesses. -/
def cfgA : ServerConfig :=
  { name := str "alpha"
    command := str "run-a"
    args := [str " x ", str ""]
    env := [(str "K", str " V ")]
    enabledForAgents := [str "agent1"]
    streaming_server := false
    url := str "http://h" }

/-- The list item holding `cfgA`. -/
def itemA : Item := { text := cfgA.name, id := str "ida", cfg := cfgA }

/-- Editor opened on a one-record store with `cfgA` selected. -/
def fixtureState : MCPState := select (initialState [(str "ida", cfgA)] [str "agent1"]) 0

/-- A record whose name is whitespace-only (fails validation). -/
def cfgBlank : ServerConfig :=
  { name := str "   "
    command := str ""
    args := []
    env := []
    enabledForAgents := []
    streaming_server := false
    url := str "" }

/-- Editor opened on a one-record store with `cfgBlank` selected. -/
def blankState : MCPState := select (initialState [(str "idb", cfgBlank)] []) 0

/-! ### C1 -/

/-- C1: with a record selected, if validation fails (empty trimmed name,
or streaming with empty trimmed url, or stdio with empty trimmed command),
`save_mcp` reports a validation warning and performs no mutation: the
whole widget state (collection, selected item data, form fields) is
unchanged and the only effect is the warning — no store write and no
`config_changed` emission. -/
theorem save_validation_failure_no_mutation (s : MCPState) (i : Nat) (it : Item)
    (hc : s.current = some i) (hit : s.items[i]? = some it)
    (hfail : strip s.name_input = [] ∨
      (s.streaming_checkbox = true ∧ strip s.url_input = []) ∨
      (s.streaming_checkbox = false ∧ strip s.command_input = [])) :
    (save_mcp s).1 = s ∧
    (∃ w, (save_mcp s).2 = [Effect.warning w]) ∧
    Effect.configChanged ∉ (save_mcp s).2 ∧
    (∀ m, Effect.write m ∉ (save_mcp s).2) := by
  have hv : validationOk s = false := by
    unfold validationOk
    rcases hfail with h | ⟨hb, h⟩ | ⟨hb, h⟩
    · simp [h]
    · simp [h, hb]
    · simp [h, hb]
  obtain ⟨h1, w, h2⟩ := save_mcp_of_invalid s i it hc hit hv
  have h3 : (save_mcp s).2 = [Effect.warning w] := by rw [h2]
  refine ⟨h1, ⟨w, h3⟩, ?_, ?_⟩
  · rw [h3]; simp
  · intro m; rw [h3]; simp

/-- C1 witness: a concrete run on `blankState` (whitespace-only name). -/
theorem save_validation_failure_no_mutation_witness :
    blankState.current = some 0 ∧ blankState.items[0]? = some
      { text := str "   ", id := str "idb", cfg := cfgBlank } ∧
    strip blankState.name_input = [] ∧
    (save_mcp blankState).1 = blankState ∧
    (∃ w, (save_mcp blankState).2 = [Effect.warning w]) ∧
    Effect.configChanged ∉ (save_mcp blankState).2 ∧
    (∀ m, Effect.write m ∉ (save_mcp blankState).2) := by
  refine ⟨by decide, by decide, by decide, ?_⟩
  have h := save_validation_failure_no_mutation blankState 0
    { text := str "   ", id := str "idb", cfg := cfgBlank }
    (by decide) (by decide) (Or.inl (by decide))
  exact ⟨h.1, h.2.1, h.2.2.1, h.2.2.2⟩

/-! ### C3 -/

/-- C3: every successful save and every confirmed remove rewrites the
whole collection (the dict built from all current list items, keyed by
id) to the store in a single write, followed by exactly one
`config_changed` emission with no payload. -/
theorem single_write_single_event (s : MCPState) (i : Nat) (it : Item)
    (hc : s.current = some i) (hit : s.items[i]? = some it) :
    (validationOk s = true →
      (save_mcp s).2 =
        [Effect.write (itemsDict ((save_mcp s).1).items), Effect.configChanged]) ∧
    (remove_mcp s true).2 =
      [Effect.write (itemsDict ((remove_mcp s true).1).items), Effect.configChanged] := by
  constructor
  · intro hv
    rw [save_mcp_of_valid s i it hc hit hv, save_mcp_commit_eq]
  · simp [remove_mcp, hc, hit, save_all_mcps, set_editor_enabled,
      set_sse_fields_visisble, set_stdio_fields_visible, update_save_button_state]

/-- C3 witness: a concrete run on `fixtureState`. -/
theorem single_write_single_event_witness :
    fixtureState.current = some 0 ∧ fixtureState.items[0]? = some itemA ∧
    validationOk fixtureState = true ∧
    ((validationOk fixtureState = true →
      (save_mcp fixtureState).2 =
        [Effect.write (itemsDict ((save_mcp fixtureState).1).items), Effect.configChanged]) ∧
    (remove_mcp fixtureState true).2 =
      [Effect.write (itemsDict ((remove_mcp fixtureState true).1).items),
       Effect.configChanged]) :=
  ⟨by decide, by decide, by decide,
    single_write_single_event fixtureState 0 itemA (by decide) (by decide)⟩

/-! ### C5 -/

/-- C5: from a stdio form state, switching the transport checkbox to
streaming and back to stdio leaves the command text, the argument rows and
the env rows exactly as they were (the handler only toggles visibility and
the dirty flag). -/
theorem transport_roundtrip (s : MCPState) (h : s.streaming_checkbox = false) :
    (set_streaming_checked (set_streaming_checked s true) false).command_input =
      s.command_input ∧
    (set_streaming_checked (set_streaming_checked s true) false).arg_inputs =
      s.arg_inputs ∧
    (set_streaming_checked (set_streaming_checked s true) false).env_inputs =
      s.env_inputs := by
  simp only [set_streaming_checked, h, on_streaming_server_changed,
    set_sse_fields_visisble, set_stdio_fields_visible, mark_dirty_eq]
  repeat' split
  all_goals simp_all

/-- C5 witness: a concrete roundtrip on `fixtureState`. -/
theorem transport_roundtrip_witness :
    (set_streaming_checked (set_streaming_checked fixtureState true) false).command_input =
      fixtureState.command_input ∧
    (set_streaming_checked (set_streaming_checked fixtureState true) false).arg_inputs =
      fixtureState.arg_inputs ∧
    (set_streaming_checked (set_streaming_checked fixtureState true) false).env_inputs =
      fixtureState.env_inputs :=
  transport_roundtrip fixtureState (by decide)

/-! ### C6 -/

/-- C6: with a record selected, a declined confirmation leaves the state
untouched with no effects (collection, selection and store unchanged); a
confirmed removal deletes exactly the selected record, shrinking the
collection by one, and persists the resulting collection. -/
theorem remove_confirmation_semantics (s : MCPState) (i : Nat) (it : Item)
    (hc : s.current = some i) (hit : s.items[i]? = some it) :
    remove_mcp s false = (s, []) ∧
    ((remove_mcp s true).1).items = s.items.eraseIdx i ∧
    ((remove_mcp s true).1).items.length + 1 = s.items.length ∧
    (remove_mcp s true).2 =
      [Effect.write (itemsDict (s.items.eraseIdx i)), Effect.configChanged] := by
  obtain ⟨hi, -⟩ := List.getElem?_eq_some_iff.mp hit
  refine ⟨?_, ?_, ?_, ?_⟩
  · simp [remove_mcp, hc, hit]
  · simp [remove_mcp, hc, hit, save_all_mcps, set_editor_enabled,
      set_sse_fields_visisble, set_stdio_fields_visible, update_save_button_state]
  · simp [remove_mcp, hc, hit, save_all_mcps, set_editor_enabled,
      set_sse_fields_visisble, set_stdio_fields_visible, update_save_button_state]
    exact List.length_eraseIdx_add_one hi
  · simp [remove_mcp, hc, hit, save_all_mcps, set_editor_enabled,
      set_sse_fields_visisble, set_stdio_fields_visible, update_save_button_state]

/-- C6 witness: a concrete run on `fixtureState`. -/
theorem remove_confirmation_semantics_witness :
    fixtureState.current = some 0 ∧ fixtureState.items[0]? = some itemA ∧
    (remove_mcp fixtureState false = (fixtureState, []) ∧
    ((remove_mcp fixtureState true).1).items = fixtureState.items.eraseIdx 0 ∧
    ((remove_mcp fixtureState true).1).items.length + 1 = fixtureState.items.length ∧
    (remove_mcp fixtureState true).2 =
      [Effect.write (itemsDict (fixtureState.items.eraseIdx 0)), Effect.configChanged]) :=
  ⟨by decide, by decide,
    remove_confirmation_semantics fixtureState 0 itemA (by decide) (by decide)⟩

/-! ### C7 -/

theorem mark_dirty_is_dirty {s : MCPState} (h1 : s.current.isSome = true)
    (h2 : s.editor_enabled = true) : (mark_dirty s).is_dirty = true := by
  rw [mark_dirty_eq]
  simp [h1, h2]

/-- C7: the dirty flag is false right after a selection loads a record
into the form, becomes true after any single effective field edit made
while the editor is enabled and a record is selected, and is false right
after a successful save. -/
theorem dirty_flag_lifecycle (s t u : MCPState) (i j k : Nat) (it itu : Item) (e : Edit)
    (hsi : s.items[i]? = some it)
    (ht1 : t.editor_enabled = true) (ht2 : t.current = some j)
    (ht3 : editEffective t e = true)
    (hu1 : u.current = some k) (hu2 : u.items[k]? = some itu)
    (hu3 : validationOk u = true) :
    (select s i).is_dirty = false ∧
    (applyEdit t e).is_dirty = true ∧
    ((save_mcp u).1).is_dirty = false := by
  have hts : t.current.isSome = true := by rw [ht2]; rfl
  refine ⟨?_, ?_, ?_⟩
  · rw [select_eq s i it hsi]
  · cases e with
    | editName t2 =>
      simp only [editEffective] at ht3
      simp only [applyEdit, set_name_text]
      rw [if_neg (by simpa using ht3)]
      exact mark_dirty_is_dirty hts ht1
    | editUrl t2 =>
      simp only [editEffective] at ht3
      simp only [applyEdit, set_url_text]
      rw [if_neg (by simpa using ht3)]
      exact mark_dirty_is_dirty hts ht1
    | editCommand t2 =>
      simp only [editEffective] at ht3
      simp only [applyEdit, set_command_text]
      rw [if_neg (by simpa using ht3)]
      exact mark_dirty_is_dirty hts ht1
    | editArg idx t2 =>
      simp only [editEffective] at ht3
      cases harg : t.arg_inputs[idx]? with
      | none => rw [harg] at ht3; simp at ht3
      | some a =>
        rw [harg] at ht3
        simp only [applyEdit, harg]
        rw [if_neg (by simpa using ht3)]
        exact mark_dirty_is_dirty hts ht1
    | editEnvKey idx t2 =>
      simp only [editEffective] at ht3
      cases harg : t.env_inputs[idx]? with
      | none => rw [harg] at ht3; simp at ht3
      | some kv =>
        rw [harg] at ht3
        simp only [applyEdit, harg]
        rw [if_neg (by simpa using ht3)]
        exact mark_dirty_is_dirty hts ht1
    | editEnvVal idx t2 =>
      simp only [editEffective] at ht3
      cases harg : t.env_inputs[idx]? with
      | none => rw [harg] at ht3; simp at ht3
      | some kv =>
        rw [harg] at ht3
        simp only [applyEdit, harg]
        rw [if_neg (by simpa using ht3)]
        exact mark_dirty_is_dirty hts ht1
    | toggleAgent idx b =>
      simp only [editEffective] at ht3
      cases harg : t.agent_checkboxes[idx]? with
      | none => rw [harg] at ht3; simp at ht3
      | some p =>
        rw [harg] at ht3
        simp only [applyEdit, harg]
        rw [if_neg (by simpa using ht3)]
        exact mark_dirty_is_dirty hts ht1
    | addArg =>
      simp only [applyEdit, add_argument_field, if_pos rfl]
      exact mark_dirty_is_dirty hts ht1
    | addEnv =>
      simp only [applyEdit, add_env_field, if_pos rfl]
      exact mark_dirty_is_dirty hts ht1
    | delArg idx =>
      simp only [editEffective] at ht3
      simp only [applyEdit]
      rw [if_pos (of_decide_eq_true ht3)]
      exact mark_dirty_is_dirty hts ht1
    | delEnv idx =>
      simp only [editEffective] at ht3
      simp only [applyEdit]
      rw [if_pos (of_decide_eq_true ht3)]
      exact mark_dirty_is_dirty hts ht1
    | setStreaming b =>
      simp only [editEffective] at ht3
      simp only [applyEdit, set_streaming_checked]
      rw [if_neg (by simpa using ht3)]
      simp only [on_streaming_server_changed, set_sse_fields_visisble,
        set_stdio_fields_visible]
      exact mark_dirty_is_dirty hts ht1
  · rw [save_mcp_of_valid u k itu hu1 hu2 hu3, save_mcp_commit_eq]

/-- C7 witness: concrete runs of the three phases on the one-record
fixture, the edit being an added argument row. -/
theorem dirty_flag_lifecycle_witness :
    fixtureState.editor_enabled = true ∧ fixtureState.current = some 0 ∧
    editEffective fixtureState Edit.addArg = true ∧
    validationOk fixtureState = true ∧
    ((select (initialState [(str "ida", cfgA)] [str "agent1"]) 0).is_dirty = false ∧
    (applyEdit fixtureState Edit.addArg).is_dirty = true ∧
    ((save_mcp fixtureState).1).is_dirty = false) :=
  ⟨by decide, by decide, by decide, by decide,
    dirty_flag_lifecycle (initialState [(str "ida", cfgA)] [str "agent1"])
      fixtureState fixtureState 0 0 0 itemA itemA Edit.addArg
      (by decide) (by decide) (by decide) (by decide) (by decide) (by decide) (by decide)⟩

/-! ### C4 -/

/-- C4 counterexample: starting from an empty store, two consecutive
`add_new_mcp` calls assign the SAME id `new_server_1` to both unsaved
records, because the id is derived from the size of the last-persisted
`mcps_config`, which `add_new_mcp` does not update.  The claimed freshness
against records added earlier in the session does not hold. -/
theorem create_fresh_id_counterexample :
    (add_new_mcp (add_new_mcp (initialState [] []))).items.map Item.id =
      [str "new_server_1", str "new_server_1"] := by decide

/-- C4 (amended): `add_new_mcp` appends a new record whose id is
`new_server_{n+1}` where `n` is the size of the last-loaded/persisted
collection (so it can collide with a record created earlier in the same
session and not yet saved), with placeholder defaults name="New Server",
stdio transport, command="docker", args=["run","-i","--rm"], selects the
new record, and sets the dirty flag to true. -/
theorem create_appends_defaults (s : MCPState) :
    (add_new_mcp s).items = s.items ++
      [{ text := str "New Server"
         id := str "new_server_" ++ (toString (s.mcps_config.length + 1)).data
         cfg :=
           { name := str "New Server"
             command := str "docker"
             args := [str "run", str "-i", str "--rm"]
             env := []
             enabledForAgents := []
             streaming_server := false
             url := str "" } }] ∧
    (add_new_mcp s).current = some s.items.length ∧
    (add_new_mcp s).is_dirty = true ∧
    (add_new_mcp s).save_btn_enabled = true := by
  simp only [add_new_mcp]
  rw [on_mcp_selected_some _ _
    { text := new_server.name
      id := str "new_server_" ++ (toString (s.mcps_config.length + 1)).data
      cfg := new_server }
    (List.getElem?_concat_length s.items _)]
  exact ⟨rfl, rfl, rfl, rfl⟩

/-! ### C2 -/

/-- The concrete state refuting C2 as stated: two unsaved created records
share the id `new_server_1`; the first is selected and renamed to `A`. -/
def dupIdState : MCPState :=
  set_name_text (select (add_new_mcp (add_new_mcp (initialState [] []))) 0) (str "A")

/-- C2 counterexample: on `dupIdState` the stdio/validation hypotheses of
the claim hold and the save succeeds, but the persisted collection maps
the selected record's id `new_server_1` to the later duplicate's config
(name "New Server"), not to the form's saved values (name "A"). -/
theorem save_stdio_duplicate_id_counterexample :
    dupIdState.streaming_checkbox = false ∧
    strip dupIdState.name_input = str "A" ∧
    strip dupIdState.command_input = str "docker" ∧
    (save_mcp dupIdState).2 =
      [Effect.write (itemsDict (((save_mcp dupIdState).1).items)), Effect.configChanged] ∧
    (savedConfig dupIdState).name = str "A" ∧
    (dictLookup (itemsDict (((save_mcp dupIdState).1).items))
        (str "new_server_1")).map ServerConfig.name = some (str "New Server") := by
  decide

/-- C2 (amended): with a record selected, stdio transport, trimmed name
and command non-empty, and the list items' ids pairwise distinct (which
duplicate unsaved creations can violate), `save_mcp` succeeds and the
persisted collection maps the selected record's id to the form's values
with each args row stripped and empty rows dropped, and the env rows
stripped, empty-key rows dropped, keys de-duplicated with the later row
winning. -/
theorem save_stdio_success_normalised (s : MCPState) (i : Nat) (it : Item)
    (hc : s.current = some i) (hit : s.items[i]? = some it)
    (hstream : s.streaming_checkbox = false)
    (hname : strip s.name_input ≠ [])
    (hcmd : strip s.command_input ≠ [])
    (hids : (s.items.map Item.id).Nodup) :
    (save_mcp s).2 =
      [Effect.write (itemsDict (((save_mcp s).1).items)), Effect.configChanged] ∧
    dictLookup (itemsDict (((save_mcp s).1).items)) it.id = some (savedConfig s) ∧
    (savedConfig s).name = strip s.name_input ∧
    (savedConfig s).command = strip s.command_input ∧
    (savedConfig s).args = (s.arg_inputs.map strip).filter (fun v => !v.isEmpty) ∧
    ((savedConfig s).env.map Prod.fst).Nodup ∧
    (∀ k2, dictLookup (savedConfig s).env k2 = lookupLastWins s.env_inputs k2) ∧
    (savedConfig s).streaming_server = false ∧
    (savedConfig s).url = strip s.url_input ∧
    (savedConfig s).enabledForAgents = checkedAgents s.agent_checkboxes := by
  have hv : validationOk s = true := by
    unfold validationOk
    simp [hstream, hname, hcmd]
  rw [save_mcp_of_valid s i it hc hit hv, save_mcp_commit_eq]
  obtain ⟨hi, -⟩ := List.getElem?_eq_some_iff.mp hit
  refine ⟨rfl, ?_, rfl, rfl, buildArgs_eq s.arg_inputs, nodup_keys_buildEnv s.env_inputs,
    dictLookup_buildEnv s.env_inputs, hstream, rfl, rfl⟩
  have hmem : ({ text := (savedConfig s).name, id := it.id, cfg := savedConfig s } : Item) ∈
      s.items.set i { text := (savedConfig s).name, id := it.id, cfg := savedConfig s } := by
    rw [List.mem_iff_getElem?]
    exact ⟨i, List.getElem?_set_self hi⟩
  have h := dictLookup_itemsDict_of_unique hmem ?_
  · exact h
  · intro y hy hid
    obtain ⟨jj, hjj⟩ := List.mem_iff_getElem?.mp hy
    by_cases hj : jj = i
    · subst hj
      rw [List.getElem?_set_self hi] at hjj
      exact (Option.some_inj.mp hjj).symm
    · rw [List.getElem?_set_ne (fun h2 => hj h2.symm)] at hjj
      have hid2 : y.id = it.id := hid
      exact absurd hid2 (id_unique_of_nodup hids hit hjj hj)

/-- C2 witness: a concrete successful stdio save on `fixtureState`. -/
theorem save_stdio_success_normalised_witness :
    fixtureState.current = some 0 ∧ fixtureState.items[0]? = some itemA ∧
    fixtureState.streaming_checkbox = false ∧
    strip fixtureState.name_input ≠ [] ∧
    strip fixtureState.command_input ≠ [] ∧
    (fixtureState.items.map Item.id).Nodup ∧
    ((save_mcp fixtureState).2 =
      [Effect.write (itemsDict (((save_mcp fixtureState).1).items)), Effect.configChanged] ∧
    dictLookup (itemsDict (((save_mcp fixtureState).1).items)) itemA.id =
      some (savedConfig fixtureState) ∧
    (savedConfig fixtureState).name = strip fixtureState.name_input ∧
    (savedConfig fixtureState).command = strip fixtureState.command_input ∧
    (savedConfig fixtureState).args =
      (fixtureState.arg_inputs.map strip).filter (fun v => !v.isEmpty) ∧
    ((savedConfig fixtureState).env.map Prod.fst).Nodup ∧
    (∀ k2, dictLookup (savedConfig fixtureState).env k2 =
      lookupLastWins fixtureState.env_inputs k2) ∧
    (savedConfig fixtureState).streaming_server = false ∧
    (savedConfig fixtureState).url = strip fixtureState.url_input ∧
    (savedConfig fixtureState).enabledForAgents =
      checkedAgents fixtureState.agent_checkboxes) :=
  ⟨by decide, by decide, by decide, by decide, by decide, by decide,
    save_stdio_success_normalised fixtureState 0 itemA
      (by decide) (by decide) (by decide) (by decide) (by decide) (by decide)⟩

/-! ### C8 -/

theorem checkedAgents_map_false (l : List (Str × Bool)) :
    checkedAgents (l.map (fun p => (p.1, false))) = [] := by
  simp [checkedAgents, List.filter_map]

theorem dictLookup_itemsDict_concat (l : List Item) (x : Item) :
    dictLookup (itemsDict (l ++ [x])) x.id = some x.cfg := by
  rw [dictLookup_itemsDict, List.reverse_append]
  simp [List.find?]

/-- The list item appended by `add_new_mcp` from state `s`. -/
def createdItem (s : MCPState) : Item :=
  { text := new_server.name
    id := str "new_server_" ++ (toString (s.mcps_config.length + 1)).data
    cfg := new_server }

/-- The widget state right after `add_new_mcp`. -/
def afterCreate (s : MCPState) : MCPState :=
  { s with
    items := s.items ++ [createdItem s]
    current := some s.items.length
    editor_enabled := true
    remove_btn_enabled := true
    name_input := str "New Server"
    streaming_checkbox := false
    url_input := str ""
    command_input := str "docker"
    arg_inputs := [str "run", str "-i", str "--rm"]
    env_inputs := []
    agent_checkboxes := s.agent_checkboxes.map (fun p => (p.1, false))
    sse_visible := false
    stdio_visible := true
    is_dirty := true
    save_btn_enabled := true }

theorem add_new_mcp_eq (s : MCPState) : add_new_mcp s = afterCreate s := by
  simp only [add_new_mcp]
  rw [on_mcp_selected_some _ _ (createdItem s) (List.getElem?_concat_length s.items _)]
  rfl

theorem validationOk_afterCreate (s : MCPState) : validationOk (afterCreate s) = true := rfl

theorem savedConfig_afterCreate (s : MCPState) : savedConfig (afterCreate s) = new_server := by
  have hn : strip (str "New Server") = str "New Server" := by decide
  have hcm : strip (str "docker") = str "docker" := by decide
  have hargs : buildArgs [str "run", str "-i", str "--rm"] =
      [str "run", str "-i", str "--rm"] := by decide
  simp only [savedConfig, afterCreate]
  rw [hn, hcm, hargs, checkedAgents_map_false]
  rfl

/-- C8: `add_new_mcp` followed immediately by `save_mcp` with the
untouched placeholder defaults passes validation, succeeds, and persists
the new record (under its generated id) with exactly the placeholder
values. -/
theorem create_then_save_succeeds (s : MCPState) :
    (save_mcp (add_new_mcp s)).2 =
      [Effect.write (itemsDict (((save_mcp (add_new_mcp s)).1).items)),
       Effect.configChanged] ∧
    dictLookup (itemsDict (((save_mcp (add_new_mcp s)).1).items))
      (str "new_server_" ++ (toString (s.mcps_config.length + 1)).data) =
      some new_server := by
  rw [add_new_mcp_eq]
  rw [save_mcp_of_valid (afterCreate s) s.items.length (createdItem s) rfl
    (List.getElem?_concat_length s.items _) (validationOk_afterCreate s)]
  rw [save_mcp_commit_eq, savedConfig_afterCreate]
  have hset : ((afterCreate s).items).set s.items.length
      { text := new_server.name, id := (createdItem s).id, cfg := new_server } =
      s.items ++ [createdItem s] :=
    set_concat_length s.items (createdItem s) _
  rw [hset]
  exact ⟨rfl, dictLookup_itemsDict_concat s.items (createdItem s)⟩

/-! ### C9 -/

/-- C9: every record written by a successful save carries all seven
fields; the inactive transport's fields are persisted from the form
(trimmed, and args/env rows filtered) rather than cleared: the url is
stored even under stdio and the command/args/env even under streaming. -/
theorem save_persists_all_fields (s : MCPState) (i : Nat) (it : Item)
    (hc : s.current = some i) (hit : s.items[i]? = some it)
    (hv : validationOk s = true) :
    ((save_mcp s).1).items[i]? = some
      { text := strip s.name_input
        id := it.id
        cfg :=
          { name := strip s.name_input
            command := strip s.command_input
            args := buildArgs s.arg_inputs
            env := buildEnv s.env_inputs
            enabledForAgents := checkedAgents s.agent_checkboxes
            streaming_server := s.streaming_checkbox
            url := strip s.url_input } } ∧
    (save_mcp s).2 =
      [Effect.write (itemsDict (((save_mcp s).1).items)), Effect.configChanged] := by
  obtain ⟨hi, -⟩ := List.getElem?_eq_some_iff.mp hit
  rw [save_mcp_of_valid s i it hc hit hv, save_mcp_commit_eq]
  exact ⟨List.getElem?_set_self hi, rfl⟩

/-- C9 witness: a concrete stdio save on `fixtureState` keeps the url. -/
theorem save_persists_all_fields_witness :
    fixtureState.current = some 0 ∧ fixtureState.items[0]? = some itemA ∧
    validationOk fixtureState = true ∧
    (((save_mcp fixtureState).1).items[0]? = some
      { text := strip fixtureState.name_input
        id := itemA.id
        cfg :=
          { name := strip fixtureState.name_input
            command := strip fixtureState.command_input
            args := buildArgs fixtureState.arg_inputs
            env := buildEnv fixtureState.env_inputs
            enabledForAgents := checkedAgents fixtureState.agent_checkboxes
            streaming_server := fixtureState.streaming_checkbox
            url := strip fixtureState.url_input } } ∧
    (save_mcp fixtureState).2 =
      [Effect.write (itemsDict (((save_mcp fixtureState).1).items)),
       Effect.configChanged]) :=
  ⟨by decide, by decide, by decide,
    save_persists_all_fields fixtureState 0 itemA (by decide) (by decide) (by decide)⟩

/-! ### C10 -/

/-- C10: `save_mcp` strips whitespace before validating and persisting: a
whitespace-only name (or url under streaming, or command under stdio) is
rejected exactly like an empty one with no mutation; and on success every
persisted string — name, command, url, each args row, each env key and
value — has no leading or trailing whitespace. -/
theorem save_trims_whitespace (s : MCPState) (i : Nat) (it : Item)
    (hc : s.current = some i) (hit : s.items[i]? = some it) :
    ((s.name_input.all isSpace = true ∨
      (s.streaming_checkbox = true ∧ s.url_input.all isSpace = true) ∨
      (s.streaming_checkbox = false ∧ s.command_input.all isSpace = true)) →
      (save_mcp s).1 = s ∧ ∃ w, (save_mcp s).2 = [Effect.warning w]) ∧
    (validationOk s = true →
      ((save_mcp s).1).items[i]? = some
        { text := (savedConfig s).name, id := it.id, cfg := savedConfig s } ∧
      noLeadWs (savedConfig s).name = true ∧ noTrailWs (savedConfig s).name = true ∧
      noLeadWs (savedConfig s).command = true ∧ noTrailWs (savedConfig s).command = true ∧
      noLeadWs (savedConfig s).url = true ∧ noTrailWs (savedConfig s).url = true ∧
      (∀ a ∈ (savedConfig s).args, noLeadWs a = true ∧ noTrailWs a = true) ∧
      (∀ kv ∈ (savedConfig s).env, noLeadWs kv.1 = true ∧ noTrailWs kv.1 = true ∧
        noLeadWs kv.2 = true ∧ noTrailWs kv.2 = true)) := by
  constructor
  · intro hws
    have hv : validationOk s = false := by
      unfold validationOk
      rcases hws with h | ⟨hb, h⟩ | ⟨hb, h⟩
      · simp [strip_of_allWs h]
      · simp [strip_of_allWs h, hb]
      · simp [strip_of_allWs h, hb]
    obtain ⟨h1, w, h2⟩ := save_mcp_of_invalid s i it hc hit hv
    exact ⟨h1, w, by rw [h2]⟩
  · intro hv
    obtain ⟨hi, -⟩ := List.getElem?_eq_some_iff.mp hit
    rw [save_mcp_of_valid s i it hc hit hv, save_mcp_commit_eq]
    refine ⟨List.getElem?_set_self hi, noLeadWs_strip _, noTrailWs_strip _,
      noLeadWs_strip _, noTrailWs_strip _, noLeadWs_strip _, noTrailWs_strip _, ?_, ?_⟩
    · intro a ha
      have ha2 : a ∈ buildArgs s.arg_inputs := ha
      rw [buildArgs_eq] at ha2
      obtain ⟨⟨a0, -, rfl⟩, -⟩ := List.mem_filter.mp ha2 |>.imp_left List.mem_map.mp
      exact ⟨noLeadWs_strip a0, noTrailWs_strip a0⟩
    · intro kv hkv
      have hkv2 : kv ∈ buildEnv s.env_inputs := hkv
      obtain ⟨kv0, -, rfl⟩ := mem_buildEnv hkv2
      exact ⟨noLeadWs_strip _, noTrailWs_strip _, noLeadWs_strip _, noTrailWs_strip _⟩

/-- C10 witness: concrete hypotheses on `fixtureState` (whose args/env
rows contain padding whitespace). -/
theorem save_trims_whitespace_witness :
    fixtureState.current = some 0 ∧ fixtureState.items[0]? = some itemA ∧
    validationOk fixtureState = true ∧
    (((fixtureState.name_input.all isSpace = true ∨
      (fixtureState.streaming_checkbox = true ∧
        fixtureState.url_input.all isSpace = true) ∨
      (fixtureState.streaming_checkbox = false ∧
        fixtureState.command_input.all isSpace = true)) →
      (save_mcp fixtureState).1 = fixtureState ∧
      ∃ w, (save_mcp fixtureState).2 = [Effect.warning w]) ∧
    (validationOk fixtureState = true →
      ((save_mcp fixtureState).1).items[0]? = some
        { text := (savedConfig fixtureState).name, id := itemA.id,
          cfg := savedConfig fixtureState } ∧
      noLeadWs (savedConfig fixtureState).name = true ∧
      noTrailWs (savedConfig fixtureState).name = true ∧
      noLeadWs (savedConfig fixtureState).command = true ∧
      noTrailWs (savedConfig fixtureState).command = true ∧
      noLeadWs (savedConfig fixtureState).url = true ∧
      noTrailWs (savedConfig fixtureState).url = true ∧
      (∀ a ∈ (savedConfig fixtureState).args,
        noLeadWs a = true ∧ noTrailWs a = true) ∧
      (∀ kv ∈ (savedConfig fixtureState).env,
        noLeadWs kv.1 = true ∧ noTrailWs kv.1 = true ∧
        noLeadWs kv.2 = true ∧ noTrailWs kv.2 = true))) :=
  ⟨by decide, by decide, by decide,
    save_trims_whitespace fixtureState 0 itemA (by decide) (by decide)⟩

end MCP
